import Mathlib

/-!
Verification of the rust-ingest telemetry ingestion service
(`src/services/rust-ingest`): a shallow embedding of the telemetry
handler, the metric validator, the HTTP ingestion endpoint, the
enricher and the binary record encoder, with theorems settling the
specification's claims about them.

Rust `f64` values are modelled by an inductive `F64` that separates the
finite values (carried as exact rationals) from NaN and the two
infinities; `HashMap<String, f64>` is modelled as an association list
`List (String × F64)` (iteration order made explicit by the list
order).  External effects (wall clock, the Kafka producer, serde_json
serialisation) appear as explicit parameters.
-/

/-- Model of a Rust `f64`: either a finite value (an exact rational) or
one of the non-finite values NaN, +∞, -∞. -/
inductive F64 where
  | finite (q : ℚ)
  | nan
  | infinity
  | negInfinity
deriving DecidableEq, Repr

/-- Model of `f64::is_finite`. -/
def F64.isFinite : F64 → Bool
  | .finite _ => true
  | _ => false

/-- Model of `(lo..=hi).contains(value)` for finite rational bounds:
IEEE comparisons with NaN are false, and an infinity never lies inside
a finite closed interval. -/
def F64.inRange (lo hi : ℚ) : F64 → Bool
  | .finite q => decide (lo ≤ q) && decide (q ≤ hi)
  | _ => false

/-- The distinct failure messages `validate_metrics` can produce
(each constructor stands for one `anyhow::anyhow!` message in
`telemetry_handler.rs`): "Metric name cannot be empty",
"Invalid metric value for {key}: {value}" (carries the key), and
"Battery level must be between 0-100%". -/
inductive ValidationError where
  | emptyMetricName
  | nonFiniteValue (key : String)
  | batteryOutOfRange
deriving DecidableEq, Repr

/-- The per-entry checks of the loop body of `validate_metrics`
(telemetry_handler.rs lines 78-110): empty-name check, finiteness
check, then the key-specific rules.  `temperature` and `humidity`
out-of-range only `warn!` (no error), `battery_level` out of [0,100]
is a hard failure, unknown keys have no extra constraint.  Returns the
error the entry raises, if any. -/
def validateEntry (key : String) (value : F64) : Option ValidationError :=
  if key = "" then some .emptyMetricName
  else if !value.isFinite then some (.nonFiniteValue key)
  else if key = "battery_level" then
    if !value.inRange 0 100 then some .batteryOutOfRange else none
  else none

/-- Model of `validate_metrics` (telemetry_handler.rs lines 77-113):
iterate over the entries, returning the first entry's error if any
entry fails, `Ok(())` otherwise. -/
def validateMetrics : List (String × F64) → Except ValidationError Unit
  | [] => .ok ()
  | (k, v) :: rest =>
    match validateEntry k v with
    | some e => .error e
    | none => validateMetrics rest

/-- An entry passes the per-entry checks iff its key is non-empty, its
value is finite, and (when the key is `battery_level`) the value lies
in [0,100]. -/
theorem validateEntry_eq_none (k : String) (v : F64) :
    validateEntry k v = none ↔
      k ≠ "" ∧ v.isFinite = true ∧
        (k = "battery_level" → v.inRange 0 100 = true) := by
  unfold validateEntry
  split_ifs with h1 h2 h3 h4 <;> simp_all

/-- If every entry passes the per-entry checks, `validate_metrics`
succeeds. -/
theorem validateMetrics_ok_of_entries (m : List (String × F64))
    (h : ∀ p ∈ m, validateEntry p.1 p.2 = none) :
    validateMetrics m = .ok () := by
  induction m with
  | nil => rfl
  | cons p rest ih =>
    obtain ⟨k, v⟩ := p
    have hp : validateEntry k v = none := h (k, v) (List.mem_cons_self _ _)
    simp only [validateMetrics, hp]
    exact ih fun q hq => h q (List.mem_cons_of_mem _ hq)

/-- If `validate_metrics` succeeds then every entry passed the
per-entry checks. -/
theorem entries_of_validateMetrics_ok (m : List (String × F64))
    (h : validateMetrics m = .ok ()) :
    ∀ p ∈ m, validateEntry p.1 p.2 = none := by
  induction m with
  | nil => intro p hp; cases hp
  | cons q rest ih =>
    obtain ⟨k, v⟩ := q
    intro p hp
    by_cases he : validateEntry k v = none
    · simp only [validateMetrics, he] at h
      rcases List.mem_cons.mp hp with h1 | h1
      · subst h1; exact he
      · exact ih h p h1
    · exfalso
      rcases Option.ne_none_iff_exists.mp he with ⟨e, he2⟩
      simp only [validateMetrics, ← he2] at h
      exact Except.noConfusion h

/-- The validator either succeeds or returns some error. -/
theorem exists_error_of_ne_ok (m : List (String × F64))
    (h : validateMetrics m ≠ .ok ()) :
    ∃ e, validateMetrics m = .error e := by
  cases hm : validateMetrics m with
  | ok u => cases u; exact absurd hm h
  | error e => exact ⟨e, rfl⟩

/-- If some entry fails its per-entry check, `validate_metrics`
returns an error. -/
theorem validateMetrics_error_of_bad_entry (m : List (String × F64))
    (h : ∃ p ∈ m, validateEntry p.1 p.2 ≠ none) :
    ∃ e, validateMetrics m = .error e := by
  apply exists_error_of_ne_ok
  intro hok
  obtain ⟨p, hp, hne⟩ := h
  exact hne (entries_of_validateMetrics_ok m hok p hp)

/-- When every key is non-empty and every finite `battery_level` value
is within range, a non-finite entry makes `validate_metrics` fail with
the key-carrying non-finite-value error. -/
theorem validateMetrics_nonFinite_named (m : List (String × F64))
    (hk : ∀ p ∈ m, p.1 ≠ "")
    (hb : ∀ p ∈ m, p.1 = "battery_level" → p.2.isFinite = true →
      p.2.inRange 0 100 = true)
    (hnf : ∃ p ∈ m, p.2.isFinite = false) :
    ∃ k v, (k, v) ∈ m ∧ v.isFinite = false ∧
      validateMetrics m = .error (.nonFiniteValue k) := by
  induction m with
  | nil => obtain ⟨p, hp, _⟩ := hnf; cases hp
  | cons q rest ih =>
    obtain ⟨k, v⟩ := q
    have hkq : k ≠ "" := hk (k, v) (List.mem_cons_self _ _)
    by_cases hv : v.isFinite = true
    · have he : validateEntry k v = none := by
        rw [validateEntry_eq_none]
        exact ⟨hkq, hv, fun hkey =>
          hb (k, v) (List.mem_cons_self _ _) hkey hv⟩
      have hrest : ∃ p ∈ rest, p.2.isFinite = false := by
        obtain ⟨p, hp, hpf⟩ := hnf
        rcases List.mem_cons.mp hp with h1 | h1
        · subst h1; rw [hv] at hpf; cases hpf
        · exact ⟨p, h1, hpf⟩
      obtain ⟨k2, v2, hmem, hfin, herr⟩ :=
        ih (fun p hp => hk p (List.mem_cons_of_mem _ hp))
          (fun p hp => hb p (List.mem_cons_of_mem _ hp)) hrest
      refine ⟨k2, v2, List.mem_cons_of_mem _ hmem, hfin, ?_⟩
      simp only [validateMetrics, he]
      exact herr
    · have hvf : v.isFinite = false := by
        cases hvv : v.isFinite with
        | false => rfl
        | true => exact absurd hvv hv
      have he : validateEntry k v = some (.nonFiniteValue k) := by
        unfold validateEntry
        simp [hkq, hvf]
      refine ⟨k, v, List.mem_cons_self _ _, hvf, ?_⟩
      simp only [validateMetrics, he]

/-- C3: under non-empty keys and finite values, an out-of-range
`battery_level` entry makes `validate_metrics` fail, and when every
`battery_level` entry lies in the inclusive range [0,100] the
validation succeeds. -/
theorem battery_hard_failure_and_inclusive_boundary
    (m : List (String × F64))
    (hk : ∀ p ∈ m, p.1 ≠ "")
    (hf : ∀ p ∈ m, p.2.isFinite = true) :
    ((∃ p ∈ m, p.1 = "battery_level" ∧ p.2.inRange 0 100 = false) →
      ∃ e, validateMetrics m = .error e) ∧
    ((∀ p ∈ m, p.1 = "battery_level" → p.2.inRange 0 100 = true) →
      validateMetrics m = .ok ()) := by
  constructor
  · intro hbad
    apply validateMetrics_error_of_bad_entry
    obtain ⟨p, hp, hkey, hrange⟩ := hbad
    refine ⟨p, hp, fun hnone => ?_⟩
    have h2 := (validateEntry_eq_none p.1 p.2).mp hnone
    rw [h2.2.2 hkey] at hrange
    cases hrange
  · intro hgood
    apply validateMetrics_ok_of_entries
    intro p hp
    rw [validateEntry_eq_none]
    exact ⟨hk p hp, hf p hp, fun hkey => hgood p hp hkey⟩

/-- Witness for C3 at concrete inputs: battery 150 fails, battery at
the boundaries 0 and 100 passes. -/
theorem battery_hard_failure_and_inclusive_boundary_witness :
    (∃ e, validateMetrics [("battery_level", F64.finite 150)] = .error e) ∧
    validateMetrics
      [("battery_level", F64.finite 0), ("battery_level", F64.finite 100)] =
        .ok () := by
  constructor
  · exact (battery_hard_failure_and_inclusive_boundary _ (by decide)
      (by decide)).1 (by decide)
  · exact (battery_hard_failure_and_inclusive_boundary _ (by decide)
      (by decide)).2 (by decide)

/-- C4: with non-empty keys, finite values and no out-of-range
`battery_level`, `validate_metrics` succeeds — out-of-range
`temperature` or `humidity` never fails (those only warn). -/
theorem temperature_humidity_out_of_range_accepted
    (m : List (String × F64))
    (hk : ∀ p ∈ m, p.1 ≠ "")
    (hf : ∀ p ∈ m, p.2.isFinite = true)
    (hb : ∀ p ∈ m, p.1 = "battery_level" → p.2.inRange 0 100 = true) :
    validateMetrics m = .ok () := by
  apply validateMetrics_ok_of_entries
  intro p hp
  rw [validateEntry_eq_none]
  exact ⟨hk p hp, hf p hp, fun hkey => hb p hp hkey⟩

/-- Witness for C4: temperature 999 (outside [-100,200]) and humidity
150 (outside [0,100]) are accepted. -/
theorem temperature_humidity_out_of_range_accepted_witness :
    validateMetrics
      [("temperature", F64.finite 999), ("humidity", F64.finite 150),
        ("battery_level", F64.finite 50)] = .ok () :=
  temperature_humidity_out_of_range_accepted _ (by decide) (by decide)
    (by decide)

/-- Counterexample to C5 as stated: the mapping
`[("", 1.0), ("x", NaN)]` contains a non-finite value, yet
`validate_metrics` reports the empty-metric-name error, which names no
key — the error does not identify the offending (non-finite) metric. -/
theorem nonfinite_error_names_key_counterexample :
    (∃ p ∈ [("", F64.finite 1), ("x", F64.nan)], p.2.isFinite = false) ∧
    ¬ ∃ k, (∃ v, (k, v) ∈ [("", F64.finite 1), ("x", F64.nan)] ∧
        v.isFinite = false) ∧
      validateMetrics [("", F64.finite 1), ("x", F64.nan)] =
        .error (.nonFiniteValue k) := by
  constructor
  · decide
  · rintro ⟨k, -, herr⟩
    have h0 : validateMetrics [("", F64.finite 1), ("x", F64.nan)] =
        .error .emptyMetricName := by rfl
    rw [h0] at herr
    cases herr

/-- C5 (amended): any mapping containing a non-finite value fails
validation; when moreover every key is non-empty and every finite
`battery_level` value is in range, the error is the non-finite-value
error naming a key whose value is non-finite. -/
theorem nonfinite_value_always_fails (m : List (String × F64))
    (hnf : ∃ p ∈ m, p.2.isFinite = false) :
    (∃ e, validateMetrics m = .error e) ∧
    ((∀ p ∈ m, p.1 ≠ "") →
      (∀ p ∈ m, p.1 = "battery_level" → p.2.isFinite = true →
        p.2.inRange 0 100 = true) →
      ∃ k v, (k, v) ∈ m ∧ v.isFinite = false ∧
        validateMetrics m = .error (.nonFiniteValue k)) := by
  constructor
  · apply validateMetrics_error_of_bad_entry
    obtain ⟨p, hp, hpf⟩ := hnf
    refine ⟨p, hp, fun hnone => ?_⟩
    have h2 := (validateEntry_eq_none p.1 p.2).mp hnone
    rw [hpf] at h2
    exact Bool.noConfusion h2.2.1
  · intro hk hb
    exact validateMetrics_nonFinite_named m hk hb hnf

/-- Witness for C5 at the concrete mapping `[("x", NaN)]`. -/
theorem nonfinite_value_always_fails_witness :
    (∃ e, validateMetrics [("x", F64.nan)] = .error e) ∧
    (∃ k v, (k, v) ∈ [("x", F64.nan)] ∧ v.isFinite = false ∧
      validateMetrics [("x", F64.nan)] = .error (.nonFiniteValue k)) := by
  have h := nonfinite_value_always_fails [("x", F64.nan)] (by decide)
  exact ⟨h.1, h.2 (by decide) (by decide)⟩

/-! ### Binary record encoder

Modelled from the spec: the Rust service serialises `Telemetry` with
the prost-generated protobuf encoder (`telemetry.encode(&mut buf)`),
whose schema `src/proto/telemetry.proto` and generated code are not
part of the sources; §4.4 of the spec requires a schema-stable binary
format with fixed field identifiers, deterministic encoding up to the
(immaterial) iteration order of the metrics map, and a decoder that
reconstructs an equivalent record.  The model below uses a base-128
varint integer encoding and length-prefixed sequences with one tag
byte per field. -/

/-- Base-128 varint encoding of a natural number (little-endian
groups, high bit marks continuation). -/
def encNat (n : Nat) : List Nat :=
  if h : n < 128 then [n]
  else (n % 128 + 128) :: encNat (n / 128)
decreasing_by exact Nat.div_lt_self (by omega) (by omega)

/-- Varint decoder; returns the value and the remaining bytes. -/
def decNat : List Nat → Option (Nat × List Nat)
  | [] => none
  | b :: rest =>
    if b < 128 then some (b, rest)
    else
      match decNat rest with
      | some (m, rest2) => some (b - 128 + 128 * m, rest2)
      | none => none

/-- The varint decoder inverts the encoder on any byte stream. -/
theorem decNat_encNat (n : Nat) :
    ∀ rest, decNat (encNat n ++ rest) = some (n, rest) := by
  induction n using Nat.strong_induction_on with
  | _ n ih =>
    intro rest
    rw [encNat]
    split
    · next h => simp [decNat, h]
    · next h =>
      have hdiv := ih (n / 128) (Nat.div_lt_self (by omega) (by omega)) rest
      have hmod : ¬ (n % 128 + 128 < 128) := by omega
      simp only [List.cons_append, decNat, List.append_eq, hmod, if_false,
        hdiv]
      have hn : n % 128 + 128 - 128 + 128 * (n / 128) = n := by omega
      rw [hn]

/-- Zigzag mapping of integers onto naturals (as in protobuf
`sint` fields). -/
def zigzag (i : Int) : Nat :=
  if 0 ≤ i then 2 * i.toNat else 2 * (-i).toNat - 1

/-- Inverse of `zigzag`. -/
def unzigzag (n : Nat) : Int :=
  if n % 2 = 0 then ((n / 2 : Nat) : Int) else -(((n / 2 : Nat) : Int) + 1)

theorem unzigzag_zigzag (i : Int) : unzigzag (zigzag i) = i := by
  unfold zigzag unzigzag
  split_ifs <;> omega

/-- Varint encoding of an integer via zigzag. -/
def encInt (i : Int) : List Nat := encNat (zigzag i)

/-- Integer decoder. -/
def decInt (bs : List Nat) : Option (Int × List Nat) :=
  match decNat bs with
  | some (n, rest) => some (unzigzag n, rest)
  | none => none

theorem decInt_encInt (i : Int) (rest : List Nat) :
    decInt (encInt i ++ rest) = some (i, rest) := by
  simp [decInt, encInt, decNat_encNat, unzigzag_zigzag]

/-- Concatenated encoding of a sequence of items. -/
def encSeq {α : Type} (enc : α → List Nat) : List α → List Nat
  | [] => []
  | a :: as => enc a ++ encSeq enc as

/-- Decode a known number of consecutive items. -/
def decCount {α : Type} (dec : List Nat → Option (α × List Nat)) :
    Nat → List Nat → Option (List α × List Nat)
  | 0, bs => some ([], bs)
  | n + 1, bs =>
    match dec bs with
    | some (a, bs2) =>
      match decCount dec n bs2 with
      | some (as, bs3) => some (a :: as, bs3)
      | none => none
    | none => none

/-- If an item decoder inverts an item encoder, counting decode
inverts sequence encode. -/
theorem decCount_encSeq {α : Type} (enc : α → List Nat)
    (dec : List Nat → Option (α × List Nat))
    (hrt : ∀ (a : α) rest, dec (enc a ++ rest) = some (a, rest)) :
    ∀ (xs : List α) (rest : List Nat),
      decCount dec xs.length (encSeq enc xs ++ rest) = some (xs, rest) := by
  intro xs
  induction xs with
  | nil => intro rest; rfl
  | cons a as ih =>
    intro rest
    simp only [encSeq, List.length_cons, List.append_assoc, decCount,
      hrt, ih]

/-- Character encoded as the varint of its code point. -/
def encChar (c : Char) : List Nat := encNat c.toNat

/-- Character decoder. -/
def decChar (bs : List Nat) : Option (Char × List Nat) :=
  match decNat bs with
  | some (n, rest) => some (Char.ofNat n, rest)
  | none => none

theorem decChar_encChar (c : Char) (rest : List Nat) :
    decChar (encChar c ++ rest) = some (c, rest) := by
  simp [decChar, encChar, decNat_encNat, Char.ofNat_toNat]

/-- Length-prefixed string encoding. -/
def encString (s : String) : List Nat :=
  encNat s.data.length ++ encSeq encChar s.data

/-- String decoder. -/
def decString (bs : List Nat) : Option (String × List Nat) :=
  match decNat bs with
  | some (n, rest) =>
    match decCount decChar n rest with
    | some (cs, rest2) => some (String.mk cs, rest2)
    | none => none
  | none => none

theorem decString_encString (s : String) (rest : List Nat) :
    decString (encString s ++ rest) = some (s, rest) := by
  obtain ⟨cs⟩ := s
  simp only [encString, decString, List.append_assoc, decNat_encNat]
  rw [decCount_encSeq encChar decChar decChar_encChar]

/-- Tagged encoding of an `F64` value: finite values carry the exact
numerator and denominator of the rational. -/
def encF64 : F64 → List Nat
  | .finite q => 0 :: (encInt q.num ++ encNat q.den)
  | .nan => [1]
  | .infinity => [2]
  | .negInfinity => [3]

/-- Decoder for `F64` values. -/
def decF64 : List Nat → Option (F64 × List Nat)
  | 0 :: bs =>
    (match decInt bs with
      | some (num, bs2) =>
        match decNat bs2 with
        | some (den, bs3) => some (.finite (mkRat num den), bs3)
        | none => none
      | none => none)
  | 1 :: bs => some (.nan, bs)
  | 2 :: bs => some (.infinity, bs)
  | 3 :: bs => some (.negInfinity, bs)
  | _ => none

theorem decF64_encF64 (v : F64) (rest : List Nat) :
    decF64 (encF64 v ++ rest) = some (v, rest) := by
  cases v with
  | finite q =>
    simp only [encF64, List.cons_append, List.append_assoc, decF64,
      decInt_encInt, decNat_encNat]
    rw [Rat.mkRat_self]
  | nan => rfl
  | infinity => rfl
  | negInfinity => rfl

/-- Encoding of one metrics-map entry: key then value. -/
def encEntry (p : String × F64) : List Nat := encString p.1 ++ encF64 p.2

/-- Entry decoder. -/
def decEntry (bs : List Nat) : Option ((String × F64) × List Nat) :=
  match decString bs with
  | some (k, bs2) =>
    match decF64 bs2 with
    | some (v, bs3) => some ((k, v), bs3)
    | none => none
  | none => none

theorem decEntry_encEntry (p : String × F64) (rest : List Nat) :
    decEntry (encEntry p ++ rest) = some (p, rest) := by
  obtain ⟨k, v⟩ := p
  simp only [encEntry, List.append_assoc, decEntry, decString_encString,
    decF64_encF64]

/-- The canonical telemetry record (`proto::telemetry::Telemetry`,
generated from `telemetry.proto`): fields `device_id`, `ts`
(milliseconds), `metrics` map and `raw` payload bytes. -/
structure Telemetry where
  device_id : String
  ts : Int
  metrics : List (String × F64)
  raw : List Nat
deriving DecidableEq, Repr

/-- Modelled from the spec: binary encoding of a telemetry record with
the metrics map written in the iteration order `entries` (the order a
`HashMap` happens to yield); fixed one-byte field identifiers 1-4
precede the fields. -/
def encodeTelemetryWith (t : Telemetry) (entries : List (String × F64)) :
    List Nat :=
  1 :: (encString t.device_id ++
    (2 :: (encInt t.ts ++
      (3 :: (encNat entries.length ++
        (encSeq encEntry entries ++
          (4 :: (encNat t.raw.length ++ encSeq encNat t.raw))))))))

/-- Model of `telemetry.encode(&mut buf)` (telemetry_handler.rs line
42): encoding with the map in its current iteration order. -/
def encodeTelemetry (t : Telemetry) : List Nat :=
  encodeTelemetryWith t t.metrics

/-- Modelled from the spec: the matching decoder; fails on any
malformed stream. -/
def decodeTelemetry (bs : List Nat) : Option Telemetry :=
  match bs with
  | 1 :: bs1 =>
    (match decString bs1 with
      | some (d, 2 :: bs2) =>
        (match decInt bs2 with
          | some (ts, 3 :: bs3) =>
            (match decNat bs3 with
              | some (n, bs4) =>
                (match decCount decEntry n bs4 with
                  | some (entries, 4 :: bs5) =>
                    (match decNat bs5 with
                      | some (m, bs6) =>
                        (match decCount decNat m bs6 with
                          | some (raw, []) => some ⟨d, ts, entries, raw⟩
                          | _ => none)
                      | none => none)
                  | _ => none)
              | none => none)
          | _ => none)
      | _ => none)
  | _ => none

/-- Decoding inverts encoding, recovering the entries in the order
they were written. -/
theorem decodeTelemetry_encodeTelemetryWith (t : Telemetry)
    (entries : List (String × F64)) :
    decodeTelemetry (encodeTelemetryWith t entries) =
      some { t with metrics := entries } := by
  obtain ⟨d, ts, ms, raw⟩ := t
  have hraw : decCount decNat raw.length (encSeq encNat raw) =
      some (raw, []) := by
    have h := decCount_encSeq encNat decNat decNat_encNat raw []
    rwa [List.append_nil] at h
  simp only [encodeTelemetryWith, decodeTelemetry, decString_encString,
    decInt_encInt, decNat_encNat,
    decCount_encSeq encEntry decEntry decEntry_encEntry, hraw]

/-- C7: round-trip law — for any telemetry record satisfying the §3
invariants and any iteration order of its metrics map, decoding the
encoded bytes yields a record with identical `device_id` and `ts` and
a metrics mapping with exactly the same key/value pairs. -/
theorem telemetry_encode_decode_roundtrip (t : Telemetry)
    (entries : List (String × F64))
    (hid : t.device_id ≠ "")
    (hne : t.metrics ≠ [])
    (hfin : ∀ p ∈ t.metrics, p.2.isFinite = true)
    (hperm : t.metrics.Perm entries) :
    ∃ t2, decodeTelemetry (encodeTelemetryWith t entries) = some t2 ∧
      t2.device_id = t.device_id ∧ t2.ts = t.ts ∧
      ∀ k v, ((k, v) ∈ t2.metrics ↔ (k, v) ∈ t.metrics) := by
  refine ⟨{ t with metrics := entries },
    decodeTelemetry_encodeTelemetryWith t entries, rfl, rfl, ?_⟩
  intro k v
  exact (hperm.mem_iff).symm

/-- Witness for C7: a concrete record, encoded with its metrics map
reversed, decodes to a record with the same fields and the same
metrics entries. -/
theorem telemetry_encode_decode_roundtrip_witness :
    ∃ t2,
      decodeTelemetry
        (encodeTelemetryWith
          ⟨"dev-1", 1700000000000, [("a", F64.finite 1), ("b", F64.finite 2)],
            [7, 300]⟩
          [("b", F64.finite 2), ("a", F64.finite 1)]) = some t2 ∧
      t2.device_id = "dev-1" ∧ t2.ts = 1700000000000 ∧
      ∀ k v, ((k, v) ∈ t2.metrics ↔
        (k, v) ∈ [("a", F64.finite 1), ("b", F64.finite 2)]) :=
  telemetry_encode_decode_roundtrip _ _ (by decide) (by decide) (by decide)
    (by decide)

/-! ### HTTP ingestion pipeline (`server.rs` and `handle_telemetry`) -/

/-- The body of `POST /telemetry` (`TelemetryRequest` in server.rs):
optional `ts` and `raw`. -/
structure TelemetryRequest where
  device_id : String
  ts : Option Int
  metrics : List (String × F64)
  raw : Option (List Nat)
deriving DecidableEq, Repr

/-- One message handed to the Kafka producer by `send_message`
(kafka.rs): topic, key and payload. -/
structure BrokerMessage where
  topic : String
  key : String
  payload : List Nat
deriving DecidableEq, Repr

/-- Outcome of the external broker send (`producer.send` inside
`send_message`), supplied as a parameter of the model. -/
inductive DeliveryOutcome where
  | delivered
  | failed (msg : String)
deriving DecidableEq, Repr

/-- Observable outcome of one `POST /telemetry` request: HTTP status,
the `error` field of an `ErrorResponse` when one is returned, and the
messages handed to the producer. -/
structure IngestOutcome where
  status : Nat
  errorField : Option String
  sentMessages : List BrokerMessage
deriving DecidableEq, Repr

/-- Model of `handle_telemetry` (telemetry_handler.rs lines 8-53):
reject empty `device_id`, then empty metrics, then protobuf-encode the
record and hand it to the producer; the delivery outcome propagates.
Returns the handler result together with the messages handed to the
producer. -/
def handleTelemetry (topic : String) (deliver : DeliveryOutcome)
    (t : Telemetry) : Except String Unit × List BrokerMessage :=
  if t.device_id = "" then (.error "Device ID cannot be empty", [])
  else if t.metrics = [] then (.error "Metrics cannot be empty", [])
  else
    let buf := encodeTelemetry t
    match deliver with
    | .delivered => (.ok (), [⟨topic, t.device_id, buf⟩])
    | .failed m => (.error m, [⟨topic, t.device_id, buf⟩])

/-- The record construction of `ingest_telemetry` (server.rs lines
113-120): `ts` defaults to the current wall clock `now`, `raw`
defaults to the empty byte vector. -/
def normalizeRequest (now : Int) (p : TelemetryRequest) : Telemetry :=
  { device_id := p.device_id
    ts := p.ts.getD now
    metrics := p.metrics
    raw := p.raw.getD [] }

/-- Model of `ingest_telemetry` (server.rs lines 88-139): empty
`device_id` → 400 "device_id is required"; empty metrics → 400
"metrics cannot be empty"; otherwise build the record and run
`handle_telemetry`, answering 200 on success and 500
"Failed to process telemetry" on failure. -/
def ingestTelemetry (topic : String) (now : Int)
    (deliver : DeliveryOutcome) (p : TelemetryRequest) : IngestOutcome :=
  if p.device_id = "" then
    { status := 400, errorField := some "device_id is required",
      sentMessages := [] }
  else if p.metrics = [] then
    { status := 400, errorField := some "metrics cannot be empty",
      sentMessages := [] }
  else
    match handleTelemetry topic deliver (normalizeRequest now p) with
    | (.ok _, sent) =>
      { status := 200, errorField := none, sentMessages := sent }
    | (.error _, sent) =>
      { status := 500, errorField := some "Failed to process telemetry",
        sentMessages := sent }

/-- Counterexample to C1 as stated: the request
`{device_id:"dev-2", metrics:{"battery_level":150.0}}` is NOT rejected
with 400 — `ingest_telemetry` never invokes `validate_metrics`, so the
request is answered 200 and one message is handed to the broker. -/
theorem battery_out_of_range_rejected_counterexample :
    ("dev-2" : String) ≠ "" ∧
    ("battery_level", F64.finite 150) ∈
      [(("battery_level" : String), F64.finite 150)] ∧
    ¬ ((ingestTelemetry "telemetry.raw" 0 .delivered
          ⟨"dev-2", none, [("battery_level", F64.finite 150)], none⟩).status
            = 400 ∧
        (ingestTelemetry "telemetry.raw" 0 .delivered
          ⟨"dev-2", none, [("battery_level", F64.finite 150)], none⟩).sentMessages
            = []) := by
  refine ⟨by decide, by decide, ?_⟩
  rintro ⟨hst, -⟩
  have h : (ingestTelemetry "telemetry.raw" 0 .delivered
      ⟨"dev-2", none, [("battery_level", F64.finite 150)], none⟩).status
        = 200 := by rfl
  rw [h] at hst
  cases hst

/-- C1 (amended): the ingestion pipeline applies only the empty-id and
empty-metrics checks — any request with non-empty `device_id` and
non-empty metrics (battery out of range included) is accepted with 200
and one encoded message keyed by the device id is handed to the
broker; `validate_metrics` itself does reject a mapping holding
`battery_level = 150`, but the pipeline never calls it. -/
theorem battery_out_of_range_not_validated_in_pipeline
    (topic : String) (now : Int) (p : TelemetryRequest)
    (hid : p.device_id ≠ "") (hm : p.metrics ≠ []) :
    (ingestTelemetry topic now .delivered p).status = 200 ∧
    (ingestTelemetry topic now .delivered p).sentMessages =
      [⟨topic, p.device_id, encodeTelemetry (normalizeRequest now p)⟩] ∧
    (∀ m : List (String × F64), ("battery_level", F64.finite 150) ∈ m →
      ∃ e, validateMetrics m = .error e) := by
  have hnorm_id : (normalizeRequest now p).device_id = p.device_id := rfl
  have hnorm_m : (normalizeRequest now p).metrics = p.metrics := rfl
  have hh : handleTelemetry topic .delivered (normalizeRequest now p) =
      (.ok (), [⟨topic, p.device_id,
        encodeTelemetry (normalizeRequest now p)⟩]) := by
    unfold handleTelemetry
    rw [hnorm_id, hnorm_m, if_neg hid, if_neg hm]
  constructor
  · unfold ingestTelemetry
    rw [if_neg hid, if_neg hm, hh]
  constructor
  · unfold ingestTelemetry
    rw [if_neg hid, if_neg hm, hh]
  · intro m hmem
    apply validateMetrics_error_of_bad_entry
    refine ⟨("battery_level", F64.finite 150), hmem, fun hnone => ?_⟩
    have h2 := (validateEntry_eq_none "battery_level" (F64.finite 150)).mp
      hnone
    have h3 := h2.2.2 rfl
    exact absurd h3 (by decide)

/-- Witness for C1 (amended) at the concrete battery-150 request. -/
theorem battery_out_of_range_not_validated_in_pipeline_witness :
    (ingestTelemetry "telemetry.raw" 0 .delivered
      ⟨"dev-2", none, [("battery_level", F64.finite 150)], none⟩).status
        = 200 ∧
    (ingestTelemetry "telemetry.raw" 0 .delivered
      ⟨"dev-2", none, [("battery_level", F64.finite 150)], none⟩).sentMessages
        = [⟨"telemetry.raw", "dev-2",
            encodeTelemetry (normalizeRequest 0
              ⟨"dev-2", none, [("battery_level", F64.finite 150)], none⟩)⟩] ∧
    (∃ e, validateMetrics [("battery_level", F64.finite 150)] =
      .error e) := by
  have h := battery_out_of_range_not_validated_in_pipeline "telemetry.raw" 0
    ⟨"dev-2", none, [("battery_level", F64.finite 150)], none⟩
    (by decide) (by decide)
  exact ⟨h.1, h.2.1, h.2.2 _ (List.mem_cons_self _ _)⟩

/-- C2: when both `device_id` and the metrics map are empty, the
response is the missing-device-id 400 error — the device-id check runs
first. -/
theorem missing_device_id_takes_precedence
    (topic : String) (now : Int) (deliver : DeliveryOutcome)
    (p : TelemetryRequest)
    (hid : p.device_id = "") (hm : p.metrics = []) :
    ingestTelemetry topic now deliver p =
      { status := 400, errorField := some "device_id is required",
        sentMessages := [] } := by
  unfold ingestTelemetry
  rw [if_pos hid]

/-- Witness for C2 at the concrete all-empty request. -/
theorem missing_device_id_takes_precedence_witness :
    ingestTelemetry "telemetry.raw" 0 .delivered ⟨"", none, [], none⟩ =
      { status := 400, errorField := some "device_id is required",
        sentMessages := [] } :=
  missing_device_id_takes_precedence "telemetry.raw" 0 .delivered
    ⟨"", none, [], none⟩ rfl rfl

/-- C6: the constructed record uses a supplied `ts` verbatim, defaults
`ts` to the current wall clock when absent, and defaults `raw` to the
empty byte sequence when absent. -/
theorem normalization_defaults (now : Int) (p : TelemetryRequest) :
    (∀ t0, p.ts = some t0 → (normalizeRequest now p).ts = t0) ∧
    (p.ts = none → (normalizeRequest now p).ts = now) ∧
    (p.raw = none → (normalizeRequest now p).raw = []) := by
  refine ⟨fun t0 h => ?_, fun h => ?_, fun h => ?_⟩ <;>
    simp [normalizeRequest, h]

/-- Witness for C6: a request with `ts = 42` keeps 42; one without
`ts` and `raw` gets the wall clock 99 and an empty payload. -/
theorem normalization_defaults_witness :
    (normalizeRequest 99 ⟨"d", some 42, [("a", F64.finite 1)], some [5]⟩).ts
      = 42 ∧
    (normalizeRequest 99 ⟨"d", none, [("a", F64.finite 1)], none⟩).ts
      = 99 ∧
    (normalizeRequest 99 ⟨"d", none, [("a", F64.finite 1)], none⟩).raw
      = [] := by
  refine ⟨(normalization_defaults 99 _).1 42 rfl,
    (normalization_defaults 99 _).2.1 rfl,
    (normalization_defaults 99 _).2.2 rfl⟩

/-! ### JSON values, enrichment and `create_telemetry_from_json` -/

/-- Model of a `serde_json::Value`. -/
inductive Json where
  | null
  | bool (b : Bool)
  | num (q : ℚ)
  | str (s : String)
  | arr (xs : List Json)
  | obj (fields : List (String × Json))

mutual
/-- Model of JSON serialisation (`serde_json::to_vec`'s textual
part): a total serialiser of `Json` values. -/
def jsonSerialize : Json → String
  | .null => "null"
  | .bool true => "true"
  | .bool false => "false"
  | .num q => toString q.num ++ "/" ++ toString q.den
  | .str s => "\"" ++ s ++ "\""
  | .arr xs => "[" ++ serializeArr xs ++ "]"
  | .obj fs => "\x7b" ++ serializeObj fs ++ "\x7d"

/-- Comma-separated serialisation of array elements. -/
def serializeArr : List Json → String
  | [] => ""
  | [x] => jsonSerialize x
  | x :: y :: xs => jsonSerialize x ++ "," ++ serializeArr (y :: xs)

/-- Comma-separated serialisation of object fields. -/
def serializeObj : List (String × Json) → String
  | [] => ""
  | [(k, v)] => "\"" ++ k ++ "\":" ++ jsonSerialize v
  | (k, v) :: f :: fs =>
    "\"" ++ k ++ "\":" ++ jsonSerialize v ++ "," ++ serializeObj (f :: fs)
end

/-- UTF-8 encoding of one character's code point. -/
def utf8EncodeChar (c : Char) : List Nat :=
  let n := c.toNat
  if n < 0x80 then [n]
  else if n < 0x800 then [0xC0 + n / 64, 0x80 + n % 64]
  else if n < 0x10000 then
    [0xE0 + n / 4096, 0x80 + (n / 64) % 64, 0x80 + n % 64]
  else
    [0xF0 + n / 262144, 0x80 + (n / 4096) % 64, 0x80 + (n / 64) % 64,
      0x80 + n % 64]

/-- UTF-8 encoding of a string as a byte sequence. -/
def utf8Encode (s : String) : List Nat :=
  (s.data.map utf8EncodeChar).flatten

/-- Model of `serde_json::to_vec` applied to a built `Json` value:
total (serialisation of these values cannot fail), typed as an
`Option` to mirror the Rust `Result`. -/
def serdeToVec (j : Json) : Option (List Nat) :=
  some (utf8Encode (jsonSerialize j))

/-- Model of `String::from_utf8_lossy`: total decoding of arbitrary
bytes, substituting U+FFFD for malformed sequences. -/
def utf8LossyChars : List Nat → List Char
  | [] => []
  | b :: bs =>
    if b < 0x80 then Char.ofNat b :: utf8LossyChars bs
    else if b < 0xC2 then Char.ofNat 0xFFFD :: utf8LossyChars bs
    else if b < 0xE0 then
      match bs with
      | b1 :: bs1 =>
        if 0x80 ≤ b1 ∧ b1 < 0xC0 then
          Char.ofNat ((b - 0xC0) * 64 + (b1 - 0x80)) :: utf8LossyChars bs1
        else Char.ofNat 0xFFFD :: utf8LossyChars (b1 :: bs1)
      | [] => [Char.ofNat 0xFFFD]
    else if b < 0xF0 then
      match bs with
      | b1 :: b2 :: bs2 =>
        if 0x80 ≤ b1 ∧ b1 < 0xC0 ∧ 0x80 ≤ b2 ∧ b2 < 0xC0 then
          Char.ofNat ((b - 0xE0) * 4096 + (b1 - 0x80) * 64 + (b2 - 0x80)) ::
            utf8LossyChars bs2
        else Char.ofNat 0xFFFD :: utf8LossyChars (b1 :: b2 :: bs2)
      | _ => [Char.ofNat 0xFFFD]
    else if b < 0xF5 then
      match bs with
      | b1 :: b2 :: b3 :: bs3 =>
        if 0x80 ≤ b1 ∧ b1 < 0xC0 ∧ 0x80 ≤ b2 ∧ b2 < 0xC0 ∧
            0x80 ≤ b3 ∧ b3 < 0xC0 then
          Char.ofNat ((b - 0xF0) * 262144 + (b1 - 0x80) * 4096 +
            (b2 - 0x80) * 64 + (b3 - 0x80)) :: utf8LossyChars bs3
        else Char.ofNat 0xFFFD :: utf8LossyChars (b1 :: b2 :: b3 :: bs3)
      | _ => [Char.ofNat 0xFFFD]
    else Char.ofNat 0xFFFD :: utf8LossyChars bs
termination_by bs => bs.length
decreasing_by all_goals (simp_wf <;> omega)

/-- Lossy text decoding of a byte payload. -/
def utf8Lossy (bs : List Nat) : String :=
  String.mk (utf8LossyChars bs)

/-- The metadata envelope built by `enrich_telemetry`
(telemetry_handler.rs lines 118-123): ingestion timestamp, node id,
and the lossily decoded original payload. -/
def envelopeJson (now node orig : String) : Json :=
  .obj [("ingested_at", .str now), ("ingestion_node", .str node),
    ("original_raw", .str orig)]

/-- Model of `enrich_telemetry` generic in the envelope serialiser
(the external `serde_json::to_vec` call): on serialisation failure the
`unwrap_or_default()` fallback installs the empty byte sequence. -/
def enrichTelemetryWith (ser : Json → Option (List Nat)) (now : String)
    (t : Telemetry) (node : String) : Telemetry :=
  { t with raw := (ser (envelopeJson now node (utf8Lossy t.raw))).getD [] }

/-- Model of `enrich_telemetry` (telemetry_handler.rs lines 116-126)
with the wall clock `now` (RFC-3339 text) passed explicitly. -/
def enrichTelemetry (now : String) (t : Telemetry) (node : String) :
    Telemetry :=
  enrichTelemetryWith serdeToVec now t node

/-- C8: enrichment is total for arbitrary payload bytes — for every
serialiser outcome it returns a record; when serialising the envelope
fails, the payload falls back to the empty byte sequence, otherwise it
becomes the serialised envelope. -/
theorem enrich_never_fails_with_fallback
    (ser : Json → Option (List Nat)) (now node : String) (t : Telemetry) :
    (ser (envelopeJson now node (utf8Lossy t.raw)) = none →
      (enrichTelemetryWith ser now t node).raw = []) ∧
    (∀ bs, ser (envelopeJson now node (utf8Lossy t.raw)) = some bs →
      (enrichTelemetryWith ser now t node).raw = bs) := by
  constructor
  · intro h
    simp [enrichTelemetryWith, h]
  · intro bs h
    simp [enrichTelemetryWith, h]

/-- Witness for C8: with a failing serialiser and a payload that is
not valid UTF-8 (`[255, 254]`), enrichment still returns a record and
its payload is the empty fallback. -/
theorem enrich_never_fails_with_fallback_witness :
    (enrichTelemetryWith (fun _ => none) "2024-01-01T00:00:00Z"
      ⟨"dev-1", 1, [("a", F64.finite 1)], [255, 254]⟩ "node-1").raw = [] :=
  (enrich_never_fails_with_fallback (fun _ => none) "2024-01-01T00:00:00Z"
    "node-1" ⟨"dev-1", 1, [("a", F64.finite 1)], [255, 254]⟩).1 rfl

/-- C9: enrichment only rewrites the `raw` payload — `device_id`, `ts`
and the metrics map of the result are those of the input record. -/
theorem enrich_changes_only_raw (now : String) (t : Telemetry)
    (node : String) :
    (enrichTelemetry now t node).device_id = t.device_id ∧
    (enrichTelemetry now t node).ts = t.ts ∧
    (enrichTelemetry now t node).metrics = t.metrics :=
  ⟨rfl, rfl, rfl⟩

/-- The top-level fields of a JSON value (`parsed.as_object()`; empty
for non-objects). -/
def topFields : Json → List (String × Json)
  | .obj fs => fs
  | _ => []

/-- Model of `Value::as_f64`: numbers convert, everything else is
`None`. -/
def asF64 : Json → Option F64
  | .num q => some (.finite q)
  | _ => none

/-- The metrics map built by the loop of `create_telemetry_from_json`
(lines 60-66): the top-level entries whose values are numbers. -/
def extractMetrics (v : Json) : List (String × F64) :=
  (topFields v).filterMap (fun kv => (asF64 kv.2).map (fun x => (kv.1, x)))

/-- Model of `create_telemetry_from_json` (telemetry_handler.rs lines
56-74).  The outcome of the external `serde_json::from_str` parse is
the oracle parameter `parsed` (`none` = syntactically invalid input,
the only error path); the wall clock is `now`; `raw` keeps the input
string's bytes. -/
def createTelemetryFromJson (parsed : Option Json) (jsonData : String)
    (deviceId : String) (now : Int) : Except String Telemetry :=
  match parsed with
  | none => .error "invalid JSON"
  | some v => .ok
    { device_id := deviceId, ts := now, metrics := extractMetrics v,
      raw := utf8Encode jsonData }

/-- C10: for every successfully parsed JSON value the conversion
succeeds, its metrics are exactly the top-level entries with numeric
values (non-numeric entries dropped), and a value with no numeric
top-level entries — any non-object included — yields an empty metrics
map rather than an error. -/
theorem create_telemetry_from_json_numeric_entries (v : Json)
    (jsonData deviceId : String) (now : Int) :
    ∃ t, createTelemetryFromJson (some v) jsonData deviceId now = .ok t ∧
      (∀ k x, ((k, x) ∈ t.metrics ↔
        ∃ jv, (k, jv) ∈ topFields v ∧ asF64 jv = some x)) ∧
      ((∀ kv ∈ topFields v, asF64 kv.2 = none) → t.metrics = []) := by
  refine ⟨_, rfl, ?_, ?_⟩
  · intro k x
    constructor
    · intro h
      rcases List.mem_filterMap.mp h with ⟨kv, hkv, hmap⟩
      rcases Option.map_eq_some'.mp hmap with ⟨y, hy, heq⟩
      have hk : kv.1 = k := (Prod.mk.injEq _ _ _ _).mp heq |>.1
      have hx : y = x := (Prod.mk.injEq _ _ _ _).mp heq |>.2
      refine ⟨kv.2, ?_, ?_⟩
      · rw [← hk]; exact hkv
      · rw [← hx]; exact hy
    · rintro ⟨jv, hjv, hs⟩
      exact List.mem_filterMap.mpr ⟨(k, jv), hjv, by simp [hs]⟩
  · intro hnone
    show List.filterMap _ _ = []
    rw [List.filterMap_eq_nil_iff]
    intro kv hkv
    rw [hnone kv hkv]
    rfl

/-- Witness for C10: parsing the non-object input `null` succeeds with
an empty metrics map. -/
theorem create_telemetry_from_json_numeric_entries_witness :
    ∃ t, createTelemetryFromJson (some Json.null) "null" "test-device" 0 =
      .ok t ∧ t.metrics = [] := by
  obtain ⟨t, h1, -, h3⟩ :=
    create_telemetry_from_json_numeric_entries Json.null "null"
      "test-device" 0
  exact ⟨t, h1, h3 (fun kv hkv => absurd hkv (List.not_mem_nil kv))⟩
